import Mathlib

/-!
Shallow embedding of the core of `mcp_cog.py` (Discord-AIBot): the per-server
connection supervisor `_manage_mcp_connection`, the shared registries
`self.mcp_connections` / `self.mcp_tools`, the tool router `execute_tool`,
the result formatter `format_calltoolresult_content`, the streaming tool-call
aggregator and the conversation-turn logic of `_handle_chat_logic`, and the
history management of `get_channel_history`.

Python dicts keyed by server name are modelled as insertion-ordered
association lists (`Dict`); `d[k] = v` replaces in place or appends,
`del d[k]` removes the entry, iteration follows list order, exactly as
Python dict semantics for the operations the source performs.
-/

namespace DiscordAIBot

/-- Association-list model of a Python `dict` with `str` keys. -/
abbrev Dict (α : Type) : Type := List (String × α)

/-- Python `d[k] = v`: replace the entry in place if the key exists, else append. -/
def dictSet {α : Type} : Dict α → String → α → Dict α
  | [], k, v => [(k, v)]
  | p :: d, k, v => if p.1 == k then (k, v) :: d else p :: dictSet d k v

/-- Python `k in d`. -/
def dictContains {α : Type} : Dict α → String → Bool
  | [], _ => false
  | p :: d, k => (p.1 == k) || dictContains d k

/-- Python `d.get(k)` / `d[k]` lookup. -/
def dictGet {α : Type} : Dict α → String → Option α
  | [], _ => none
  | p :: d, k => if p.1 == k then some p.2 else dictGet d k

/-- Python `del d[k]` (on a dict, so at most one entry carries the key). -/
def dictDel {α : Type} : Dict α → String → Dict α
  | [], _ => []
  | p :: d, k => if p.1 == k then dictDel d k else p :: dictDel d k

/-- A tool definition as published by `list_tools` (`ToolDef`): only the
fields the routing logic reads. -/
structure ToolDef where
  name : String
  description : String
deriving DecidableEq

/-- The shared registries of `MCPCog`: `self.mcp_connections` (live `MCPClient`
handles, modelled as opaque `Nat` tokens) and `self.mcp_tools` (tool lists),
both keyed by server name. -/
structure RegistryState where
  mcp_connections : Dict Nat
  mcp_tools : Dict (List ToolDef)
deriving DecidableEq

/-- The empty registries of `__init__` (lines 120-123). -/
def registryInit : RegistryState := { mcp_connections := [], mcp_tools := [] }

/-- The registry mutations the source performs, one constructor per
`await`-free block that touches the two dicts. -/
inductive RegistryEvent where
  /-- `_manage_mcp_connection` publishing on success (lines 194-195). -/
  | publish (name : String) (client : Nat) (toolsList : List ToolDef)
  /-- `_manage_mcp_connection` cleanup before retry/shutdown (lines 221-226
  and 244-245): guarded deletes of both entries. -/
  | supervisorCleanup (name : String)
  /-- `execute_tool` fault path on a connection error (lines 404-405):
  guarded deletes of both entries. -/
  | routerEvict (name : String)
  /-- `cog_unload` clearing both dicts (lines 321-322). -/
  | unloadClear

/-- One registry mutation, exactly as the corresponding source block writes
the two dicts. -/
def registryStep (s : RegistryState) (e : RegistryEvent) : RegistryState :=
  match e with
  | .publish name client toolsList =>
      { mcp_connections := dictSet s.mcp_connections name client
      , mcp_tools := dictSet s.mcp_tools name toolsList }
  | .supervisorCleanup name =>
      { mcp_connections :=
          if dictContains s.mcp_connections name then dictDel s.mcp_connections name
          else s.mcp_connections
      , mcp_tools :=
          if dictContains s.mcp_tools name then dictDel s.mcp_tools name
          else s.mcp_tools }
  | .routerEvict name =>
      { mcp_connections :=
          if dictContains s.mcp_connections name then dictDel s.mcp_connections name
          else s.mcp_connections
      , mcp_tools :=
          if dictContains s.mcp_tools name then dictDel s.mcp_tools name
          else s.mcp_tools }
  | .unloadClear => { mcp_connections := [], mcp_tools := [] }

/-- Registry state after a sequence of mutations starting from `__init__`. -/
def registryRun (es : List RegistryEvent) : RegistryState :=
  es.foldl registryStep registryInit

/-- The supervisor loop phases of `_manage_mcp_connection`: `connecting`
covers client creation plus `list_tools` (lines 184-191), `ready` is the
`await self._shutdown_event.wait()` of line 203, `backoffWait` is the
interruptible reconnect delay of line 233, `terminated` is loop exit. -/
inductive SupPhase where
  | connecting
  | ready
  | backoffWait
  | terminated
deriving DecidableEq

/-- State of one supervisor task together with the cog-wide shutdown flag
(`self._shutdown_event`) and the task-local `reconnect_delay`. -/
structure SupervisorState where
  phase : SupPhase
  shutdownSet : Bool
  reconnectDelay : Nat
deriving DecidableEq

/-- Task state at the top of `_manage_mcp_connection` (line 174:
`reconnect_delay = 15`). -/
def supInit : SupervisorState :=
  { phase := .connecting, shutdownSet := false, reconnectDelay := 15 }

/-- Events the supervisor task can observe. `readyWakeup` is the completion
of `self._shutdown_event.wait()`, which an `asyncio.Event` delivers only when
the event is set; `routerEvict` is the Router deleting this server's registry
entries, which touches no task state and no event. -/
inductive SupEvent where
  | connectAndListOk
  | connectAndListFail
  | readyWakeup
  | backoffTimeout
  | backoffShutdownWakeup
  | setShutdown
  | routerEvict
deriving DecidableEq

/-- `max_reconnect_delay`-capped doubling of line 237:
`reconnect_delay = min(reconnect_delay * 2, max_reconnect_delay)`. -/
def nextReconnectDelay (d : Nat) : Nat := min (d * 2) 300

/-- One step of the supervisor loop. Success resets the delay to 15
(line 197); a failure with shutdown unset enters the backoff wait
(lines 230-233); the wait in `ready` completes only when the shutdown event
is set (line 203); a Router eviction changes nothing in the task. -/
def supStep (s : SupervisorState) (e : SupEvent) : SupervisorState :=
  match e with
  | .setShutdown => { s with shutdownSet := true }
  | .routerEvict => s
  | .connectAndListOk =>
      if s.phase = .connecting then { s with phase := .ready, reconnectDelay := 15 }
      else s
  | .connectAndListFail =>
      if s.phase = .connecting then
        if s.shutdownSet then { s with phase := .terminated }
        else { s with phase := .backoffWait }
      else s
  | .readyWakeup =>
      if s.phase = .ready ∧ s.shutdownSet then { s with phase := .terminated }
      else s
  | .backoffTimeout =>
      if s.phase = .backoffWait ∧ ¬ s.shutdownSet then
        { s with phase := .connecting, reconnectDelay := nextReconnectDelay s.reconnectDelay }
      else s
  | .backoffShutdownWakeup =>
      if s.phase = .backoffWait ∧ s.shutdownSet then { s with phase := .terminated }
      else s

/-- Supervisor state after a sequence of events. -/
def supRun (s : SupervisorState) (es : List SupEvent) : SupervisorState :=
  es.foldl supStep s

/-- `reconnect_delay` in force for the wait that follows the `(n+1)`-th
consecutive connection failure: 15 initially, doubled capped at 300 after
each failed episode. -/
def delayAfterFailures : Nat → Nat
  | 0 => 15
  | n + 1 => nextReconnectDelay (delayAfterFailures n)

/-- Event sequence driving the supervisor from `supInit` into its `(n+1)`-th
consecutive backoff wait. -/
def failCycle : Nat → List SupEvent
  | 0 => [.connectAndListFail]
  | n + 1 => failCycle n ++ [.backoffTimeout, .connectAndListFail]

/-- The dynamically typed Python values a tool result's `content` can hold
(the shapes `format_calltoolresult_content` dispatches on). Floats are left
out: no claim touches them and they have no exact shallow embedding. -/
inductive PyVal where
  | none
  | str (s : String)
  | int (n : Int)
  | bool (b : Bool)
  | list (xs : List PyVal)
  | dict (kvs : List (String × PyVal))

/-- Python truthiness (`if result.content:`) for the embedded values. -/
def pyTruthy : PyVal → Bool
  | .none => false
  | .str s => s ≠ ""
  | .int n => n ≠ 0
  | .bool b => b
  | .list xs => !xs.isEmpty
  | .dict kvs => !kvs.isEmpty

mutual

/-- Model of Python `str(·)` on the embedded values (an external builtin,
modelled for the shapes the source feeds it; `\x7b`, `\x7d`, `\x27` are
brace and quote characters). -/
def pyStr : PyVal → String
  | .none => "None"
  | .str s => s
  | .int n => toString n
  | .bool b => if b then "True" else "False"
  | .list xs => "[" ++ pyStrItems xs ++ "]"
  | .dict kvs => "\x7b" ++ pyStrEntries kvs ++ "\x7d"

def pyStrItems : List PyVal → String
  | [] => ""
  | [x] => pyStr x
  | x :: y :: xs => pyStr x ++ ", " ++ pyStrItems (y :: xs)

def pyStrEntries : List (String × PyVal) → String
  | [] => ""
  | [(k, v)] => "\x27" ++ k ++ "\x27: " ++ pyStr v
  | (k, v) :: q :: kvs => "\x27" ++ k ++ "\x27: " ++ pyStr v ++ ", " ++ pyStrEntries (q :: kvs)

end

/-- Two spaces per indentation level. -/
def indentSpaces (lvl : Nat) : String := String.join (List.replicate lvl "  ")

mutual

/-- Model of Python `json.dumps(·, indent=2)` (an external library call) at a
given indentation level. -/
def jsonDumpsLevel (lvl : Nat) : PyVal → String
  | .none => "null"
  | .str s => "\"" ++ s ++ "\""
  | .int n => toString n
  | .bool b => if b then "true" else "false"
  | .list [] => "[]"
  | .list (x :: xs) =>
      "[\n" ++ jsonDumpsItems (lvl + 1) (x :: xs) ++ "\n" ++ indentSpaces lvl ++ "]"
  | .dict [] => "\x7b\x7d"
  | .dict (p :: kvs) =>
      "\x7b\n" ++ jsonDumpsEntries (lvl + 1) (p :: kvs) ++ "\n" ++ indentSpaces lvl ++ "\x7d"

def jsonDumpsItems (lvl : Nat) : List PyVal → String
  | [] => ""
  | [x] => indentSpaces lvl ++ jsonDumpsLevel lvl x
  | x :: y :: xs =>
      indentSpaces lvl ++ jsonDumpsLevel lvl x ++ ",\n" ++ jsonDumpsItems lvl (y :: xs)

def jsonDumpsEntries (lvl : Nat) : List (String × PyVal) → String
  | [] => ""
  | [(k, v)] => indentSpaces lvl ++ "\"" ++ k ++ "\": " ++ jsonDumpsLevel lvl v
  | (k, v) :: q :: kvs =>
      indentSpaces lvl ++ "\"" ++ k ++ "\": " ++ jsonDumpsLevel lvl v ++ ",\n"
        ++ jsonDumpsEntries lvl (q :: kvs)

end

/-- `json.dumps(content, indent=2)` as called at line 439. -/
def jsonDumpsIndent2 (v : PyVal) : String := jsonDumpsLevel 0 v

/-- `ToolInvocationResult`: `content` plus `error_code` (`None`, `0`, or a
non-zero code). -/
structure ToolInvocationResult where
  content : PyVal
  error_code : Option Int

/-- `tool.name == tool_name for tool in tools` (lines 339 and 354). -/
def toolListHas (ts : List ToolDef) (toolName : String) : Bool :=
  ts.any (fun t => t.name == toolName)

/-- The predicate of the resolution scan (line 339): the server row is in
`self.mcp_tools` and its loaded tool list contains the requested name. -/
def connHasTool (tools : Dict (List ToolDef)) (toolName : String) (p : String × Nat) : Bool :=
  match dictGet tools p.1 with
  | some ts => toolListHas ts toolName
  | Option.none => false

/-- The resolution scan of `execute_tool` lines 337-343: first server in
`self.mcp_connections` (dict iteration = insertion order) whose tool list
contains the name. -/
def findServer (s : RegistryState) (toolName : String) : Option String :=
  (s.mcp_connections.find? (connHasTool s.mcp_tools toolName)).map Prod.fst

/-- The fallback scan of lines 353-356: first server in `self.mcp_tools`
whose (loaded) tool list contains the name. -/
def toolOrigin (tools : Dict (List ToolDef)) (toolName : String) : Option String :=
  (tools.find? (fun p => toolListHas p.2 toolName)).map Prod.fst

/-- Classification of the resolution phase of `execute_tool`
(lines 337-370). -/
inductive ExecOutcome where
  /-- A live server carries the tool; invocation proceeds (line 372). -/
  | invoked (server : String)
  /-- Line 349: `self.mcp_connections` is empty. -/
  | noServersConnected
  /-- Line 366: the tool is known from a loaded tool list whose server has
  no live connection. -/
  | unavailable (origin : String)
  /-- Line 368: origin found and still connected — internal state error. -/
  | internalMismatch
  /-- Line 370: the tool is not found at all. -/
  | notFound
deriving DecidableEq

/-- `ExecOutcome.unavailable` recognizer. -/
def isUnavailableOutcome : ExecOutcome → Bool
  | .unavailable _ => true
  | _ => false

/-- The resolution/classification logic of `execute_tool` lines 337-370,
faithful to the branch order of the source. -/
def resolveTool (s : RegistryState) (toolName : String) : ExecOutcome :=
  match findServer s toolName with
  | some srv => .invoked srv
  | none =>
      if s.mcp_connections.isEmpty then .noServersConnected
      else
        match toolOrigin s.mcp_tools toolName with
        | some origin =>
            if ¬ dictContains s.mcp_connections origin then .unavailable origin
            else .internalMismatch
        | none => .notFound

/-- Outcome of the awaited `invoke_tool` call (line 376), as the `try` of
lines 373-409 distinguishes them. -/
inductive InvokeOutcome where
  | completed (r : ToolInvocationResult)
  | timeout
  | connectionFault
  | otherError (msg : String)

/-- What `execute_tool` returns: the `ToolInvocationResult` unchanged on
success, or the standard error dict `\x7b'error': msg\x7d`. -/
inductive ExecuteResult where
  | ok (r : ToolInvocationResult)
  | errDict (msg : String)

/-- Line 387-389: `"Tool reported error code {code}"`, extended with
`": {content}"` when the content is truthy. -/
def toolReportedErrorMessage (code : Int) (content : PyVal) : String :=
  let base := "Tool reported error code " ++ toString code
  if pyTruthy content then base ++ ": " ++ pyStr content else base

/-- The error strings of the failed-resolution branches (lines 349, 366,
368, 370). -/
def resolutionErrorText (toolName : String) : ExecOutcome → String
  | .invoked _ => ""
  | .noServersConnected =>
      "Tool \"" ++ toolName ++ "\" cannot be executed: No MCP servers currently connected."
  | .unavailable origin =>
      "Tool \"" ++ toolName ++ "\" exists (on server \"" ++ origin
        ++ "\"), but the server is currently disconnected or unavailable."
  | .internalMismatch =>
      "Internal state error: Tool \"" ++ toolName ++ "\" found but client mismatch."
  | .notFound =>
      "Tool \"" ++ toolName ++ "\" not found on any configured and connected MCP server."

/-- Lines 373-409: classify the invocation outcome on the matched server.
Only the connection-fault branch mutates the registries (lines 404-405);
timeout and tool-reported errors leave them untouched. -/
def invokeAndClassify (s : RegistryState) (toolName srv : String) (outcome : InvokeOutcome) :
    RegistryState × ExecuteResult :=
  match outcome with
  | .completed r =>
      match r.error_code with
      | some code =>
          if code ≠ 0 then (s, .errDict (toolReportedErrorMessage code r.content))
          else (s, .ok r)
      | Option.none => (s, .ok r)
  | .timeout => (s, .errDict ("Tool call \"" ++ toolName ++ "\" timed out."))
  | .connectionFault =>
      (registryStep s (.routerEvict srv),
        .errDict ("Connection error executing tool \"" ++ toolName
          ++ "\". The server may be temporarily unavailable. Please try again."))
  | .otherError msg =>
      (s, .errDict ("Error calling tool \"" ++ toolName ++ "\": " ++ msg))

/-- `execute_tool` end to end: resolve, then invoke with the given outcome;
unresolved tools return the corresponding error dict with the state
unchanged. -/
def execute_tool (s : RegistryState) (toolName : String) (outcome : InvokeOutcome) :
    RegistryState × ExecuteResult :=
  match resolveTool s toolName with
  | .invoked srv => invokeAndClassify s toolName srv outcome
  | o => (s, .errDict (resolutionErrorText toolName o))

/-- `content.get('type') == 'text'` (line 428): Python `==` against the
string `'text'` is true only for an equal string value. -/
def isTextTag : Option PyVal → Bool
  | some (.str s) => s == "text"
  | _ => false

/-- Lines 420-445: formatting of a `ToolInvocationResult`'s content. -/
def formatSuccessContent (content : PyVal) : String :=
  match content with
  | .none => "Tool executed successfully but returned no content."
  | .dict kvs =>
      if isTextTag (dictGet kvs "type") && dictContains kvs "text" then
        match dictGet kvs "text" with
        | some PyVal.none => ""
        | some t => pyStr t
        | Option.none => ""
      else jsonDumpsIndent2 (.dict kvs)
  | .str s => s
  | .int n => pyStr (.int n)
  | .bool b => pyStr (.bool b)
  | .list xs => jsonDumpsIndent2 (.list xs)

/-- The three shapes `format_calltoolresult_content` receives: a
`ToolInvocationResult`, the standard error dict, or anything else (carried
as its `str(·)` rendering, used only for the diagnostic). -/
inductive FormatterInput where
  | invocation (r : ToolInvocationResult)
  | errDict (msg : String)
  | unexpected (strRep : String)

/-- `format_calltoolresult_content` (lines 411-453), total over the three
input shapes. -/
def format_calltoolresult_content : FormatterInput → String
  | .invocation r => formatSuccessContent r.content
  | .errDict msg => "Tool Error: " ++ msg
  | .unexpected strRep => "Unexpected tool result format: " ++ strRep.take 200

/-- One streamed tool-call fragment (`ChoiceDeltaToolCall`): a slot index
plus optional id, name and argument texts. Absent texts are the empty
string, matching the truthiness guards of lines 630-633 (an empty fragment
changes nothing). -/
structure ToolCallFrag where
  index : Nat
  id : String
  name : String
  arguments : String
deriving DecidableEq

/-- One accumulating slot of `current_tool_calls` (line 627): id starts
unset (`None`, modelled as `""` since only truthy ids are ever written),
name and arguments start empty. -/
structure PendingToolCall where
  id : String
  name : String
  arguments : String
deriving DecidableEq

/-- The lazily created slot of line 627. -/
def emptySlot : PendingToolCall := { id := "", name := "", arguments := "" }

/-- The `while len(current_tool_calls) <= idx: append(...)` loop of
line 627. -/
def ensureSlots (slots : List PendingToolCall) (idx : Nat) : List PendingToolCall :=
  slots ++ List.replicate (idx + 1 - slots.length) emptySlot

/-- Lines 630-633: overwrite the id when the fragment carries a truthy one,
concatenate name and argument texts onto the slot. -/
def updateSlot (tc : PendingToolCall) (f : ToolCallFrag) : PendingToolCall :=
  { id := if f.id != "" then f.id else tc.id
  , name := tc.name ++ f.name
  , arguments := tc.arguments ++ f.arguments }

/-- Process one fragment against the slot table (lines 626-633). -/
def applyFrag (slots : List PendingToolCall) (f : ToolCallFrag) : List PendingToolCall :=
  let grown := ensureSlots slots f.index
  grown.set f.index (updateSlot (grown.getD f.index emptySlot) f)

/-- Line 634: finalize only slots with truthy id and truthy name. -/
def finalizeToolCalls (slots : List PendingToolCall) : List PendingToolCall :=
  slots.filter (fun tc => tc.id != "" && tc.name != "")

/-- The whole streaming aggregation: fold the fragments in stream order into
the slot table, then finalize. -/
def aggregateToolCalls (frags : List ToolCallFrag) : List PendingToolCall :=
  finalizeToolCalls (frags.foldl applyFrag [])

/-- The concrete delta stream of the spec's example: slot 0 gets id `"a"`,
name parts `"get"`, `"Weather"` and argument parts `\x7b"city":` and
`"NY"\x7d`; slot 1 receives a name but never an id. -/
def exampleFrags : List ToolCallFrag :=
  [ { index := 0, id := "a", name := "get", arguments := "\x7b\"city\":" }
  , { index := 0, id := "", name := "Weather", arguments := "\"NY\"\x7d" }
  , { index := 1, id := "", name := "incomplete", arguments := "\x7b\x7d" } ]

/-- Message roles of the conversation history. -/
inductive Role where
  | system
  | user
  | assistant
  | tool
deriving DecidableEq

/-- One history entry. `toolCallId` and `name` are empty for non-`tool`
entries; an assistant entry whose content the source leaves `None` carries
`""`. -/
structure Msg where
  role : Role
  content : String
  toolCallId : String
  name : String
deriving DecidableEq

/-- The system message installed on first access (lines 461-464). -/
def systemMsgOf (systemMessage : String) : Msg :=
  { role := .system, content := systemMessage, toolCallId := "", name := "" }

/-- A plain user message. -/
def userMsg (text : String) : Msg :=
  { role := .user, content := text, toolCallId := "", name := "" }

/-- A plain assistant message. -/
def assistantMsg (text : String) : Msg :=
  { role := .assistant, content := text, toolCallId := "", name := "" }

/-- The trimming of `get_channel_history` lines 466-473: when the length
exceeds `max_history_len + 1`, keep element 0 (the system message) plus the
most recent `max_history_len` entries. -/
def trimHistory (maxHistoryLen : Nat) (h : List Msg) : List Msg :=
  let targetLen := maxHistoryLen + 1
  if h.length > targetLen then
    let amountToRemove := h.length - targetLen
    h.take 1 ++ h.drop (amountToRemove + 1)
  else h

/-- `get_channel_history` (lines 455-475): initialize with the system
message on first access, otherwise trim. -/
def get_channel_history (systemMessage : String) (maxHistoryLen : Nat) :
    Option (List Msg) → List Msg
  | Option.none => [systemMsgOf systemMessage]
  | some h => trimHistory maxHistoryLen h

/-- The mutations a channel's history undergoes in the source: appends of
user/assistant/tool entries (lines 596, 672, 736, 768) and the trim on read
(lines 466-473). -/
inductive HistOp where
  | appendMsg (m : Msg)
  | trimTo (maxLen : Nat)

/-- Apply one history mutation. -/
def applyHistOp (h : List Msg) : HistOp → List Msg
  | .appendMsg m => h ++ [m]
  | .trimTo n => trimHistory n h

/-- History of a fresh channel after a sequence of mutations. -/
def runHistOps (systemMessage : String) (ops : List HistOp) : List Msg :=
  ops.foldl applyHistOp [systemMsgOf systemMessage]

/-- One tool call aggregated from the LLM response, together with the facts
about it that drive the branches of lines 682-732: whether the dict carried
the required `id`/`function` structure (lines 684-687 skip it entirely
otherwise), whether its argument string parsed to a JSON object
(lines 696-707), and the formatted result text otherwise (lines 710-713). -/
structure ToolCallReq where
  id : String
  name : String
  argsStr : String
  structValid : Bool
  argsValid : Bool
  resultText : String
deriving DecidableEq

/-- Line 702: the history payload recorded for malformed JSON arguments. -/
def invalidArgsText (toolName argsStr : String) : String :=
  "Error: Invalid JSON object arguments provided for tool \"" ++ toolName
    ++ "\". LLM sent: " ++ argsStr

/-- The `tool` role entries appended for one round of tool calls, in request
order: structurally malformed calls are skipped with no entry (lines
684-687), all others append exactly one entry (lines 706 and 727-732). -/
def toolResultEntries (tcs : List ToolCallReq) : List Msg :=
  (tcs.filter (fun tc => tc.structValid)).map (fun tc =>
    { role := .tool
    , content := if tc.argsValid then tc.resultText else invalidArgsText tc.name tc.argsStr
    , toolCallId := tc.id
    , name := tc.name })

/-- The parameter keys of `self.llm_chat_params` plus the explicit `stream`
key (lines 151-157, 601): never contains `tools` or `tool_choice`. -/
def baseParamKeys : List String := ["model", "temperature", "stream"]

/-- Keys of the initial call's `chat_params` (lines 601-605): `tools` and
`tool_choice` are added only when the formatted tool list is non-empty. -/
def initialParamKeys (toolsOffered : Bool) : List String :=
  if toolsOffered then baseParamKeys ++ ["tools", "tool_choice"] else baseParamKeys

/-- Keys of `follow_up_params` (lines 740-742): the base keys with `tools`
and `tool_choice` popped. -/
def followUpParamKeys : List String :=
  baseParamKeys.filter (fun k => k != "tools" && k != "tool_choice")

/-- One reasoning-backend call as issued by `_handle_chat_logic`: the
history passed as `messages` and the extra parameter keys. -/
structure LLMCallRecord where
  messages : List Msg
  paramKeys : List String
deriving DecidableEq

/-- Result of one conversation turn: the backend calls issued (in order) and
the final history. -/
structure TurnOutcome where
  llmCalls : List LLMCallRecord
  history : List Msg
deriving DecidableEq

/-- The initial LLM response after aggregation: text content plus the
aggregated tool calls. -/
structure InitialResponse where
  content : String
  toolCalls : List ToolCallReq
deriving DecidableEq

/-- The assistant message recorded at lines 663 and 668-672: content is set
only when the stripped text is non-empty (`None` modelled as `""`). -/
def assistantMsgOf (resp : InitialResponse) : Msg :=
  { role := .assistant
  , content := if resp.content.trim ≠ "" then resp.content else ""
  , toolCallId := ""
  , name := "" }

/-- The control flow of `_handle_chat_logic` lines 595-770 for one user
message, with the two LLM responses supplied as oracle inputs: append the
user message, issue the initial call, append the assistant message when it
carries content or tool calls, process the tool calls, and when at least one
tool entry was appended issue exactly one follow-up call without the tool
parameters. -/
def handleChatLogic (hist0 : List Msg) (userText : String) (toolsOffered : Bool)
    (resp : InitialResponse) (followUpText : String) : TurnOutcome :=
  let hist1 := hist0 ++ [userMsg userText]
  let call1 : LLMCallRecord := { messages := hist1, paramKeys := initialParamKeys toolsOffered }
  if resp.content.trim = "" ∧ resp.toolCalls = [] then
    { llmCalls := [call1], history := hist1 }
  else
    let hist2 := hist1 ++ [assistantMsgOf resp]
    if resp.toolCalls = [] then { llmCalls := [call1], history := hist2 }
    else
      let entries := toolResultEntries resp.toolCalls
      if entries = [] then { llmCalls := [call1], history := hist2 }
      else
        let hist3 := hist2 ++ entries
        let call2 : LLMCallRecord := { messages := hist3, paramKeys := followUpParamKeys }
        if followUpText.trim = "" then { llmCalls := [call1, call2], history := hist3 }
        else { llmCalls := [call1, call2], history := hist3 ++ [assistantMsg followUpText] }

/-- A sample tool definition published by server `alpha`. -/
def gwTool : ToolDef := { name := "getWeather", description := "Gets the weather" }

/-- Registry reached by `alpha` publishing `getWeather` and `beta`
publishing an empty tool list. -/
def twoServerState : RegistryState :=
  registryRun [.publish "alpha" 1 [gwTool], .publish "beta" 2 []]

/-- Registry with only `alpha` connected and publishing `getWeather`. -/
def oneServerState : RegistryState :=
  registryRun [.publish "alpha" 1 [gwTool]]

/-- The spec's sample tool-reported error: content `"x"`, error code 7. -/
def errSevenResult : ToolInvocationResult := { content := .str "x", error_code := some 7 }

/-- Sample history `[system, u1, a1, u2, a2, u3]` for the trimming claims. -/
def sampleTrimHistory : List Msg :=
  [ systemMsgOf "sys", userMsg "u1", assistantMsg "a1", userMsg "u2"
  , assistantMsg "a2", userMsg "u3" ]

/-- A well-formed aggregated tool call used to exercise the follow-up
round. -/
def sampleToolCall : ToolCallReq :=
  { id := "call1", name := "getWeather", argsStr := "\x7b\x7d"
  , structValid := true, argsValid := true, resultText := "42" }

/-- An initial LLM response requesting one tool call and carrying no text. -/
def sampleToolResponse : InitialResponse := { content := "", toolCalls := [sampleToolCall] }

/-- A 300-character stand-in for the `str(·)` of an unexpected result shape. -/
def longStrRep : String := String.mk (List.replicate 300 'z')

theorem supRun_append (s : SupervisorState) (es es2 : List SupEvent) :
    supRun s (es ++ es2) = supRun (supRun s es) es2 := by
  simp [supRun, List.foldl_append]

theorem delayAfterFailures_eq (n : Nat) :
    delayAfterFailures n = min (15 * 2 ^ n) 300 := by
  induction n with
  | zero => decide
  | succ n ih =>
      simp only [delayAfterFailures, nextReconnectDelay, ih, pow_succ]
      omega

theorem supRun_failCycle (n : Nat) :
    supRun supInit (failCycle n) =
      { phase := .backoffWait, shutdownSet := false, reconnectDelay := delayAfterFailures n } := by
  induction n with
  | zero => rfl
  | succ n ih =>
      rw [failCycle, supRun_append, ih]
      rfl

theorem dictContains_eq_keys {α : Type} (d : Dict α) (k : String) :
    dictContains d k = (d.map Prod.fst).any (fun a => a == k) := by
  induction d with
  | nil => rfl
  | cons p d ih => simp [dictContains, List.any_cons, ih]

theorem keys_dictDel {α : Type} (d : Dict α) (k : String) :
    (dictDel d k).map Prod.fst = (d.map Prod.fst).filter (fun a => !(a == k)) := by
  induction d with
  | nil => rfl
  | cons p d ih =>
      cases hpk : (p.1 == k) with
      | true => simp [dictDel, hpk, List.filter_cons, ih]
      | false => simp [dictDel, hpk, List.filter_cons, ih]

theorem keys_guardedDel {α : Type} (d : Dict α) (k : String) :
    ((if dictContains d k then dictDel d k else d).map Prod.fst)
      = (d.map Prod.fst).filter (fun a => !(a == k)) := by
  cases hc : dictContains d k with
  | true => simp [keys_dictDel]
  | false =>
      simp only [hc, Bool.false_eq_true, if_false]
      symm
      apply List.filter_eq_self.mpr
      intro a ha
      cases hak : (a == k) with
      | true =>
          rw [dictContains_eq_keys] at hc
          have hth : ((List.map Prod.fst d).any fun a => a == k) = true :=
            List.any_eq_true.mpr ⟨a, ha, hak⟩
          rw [hc] at hth
          cases hth
      | false => rfl

theorem keys_dictSet {α : Type} (d : Dict α) (k : String) (v : α) :
    (dictSet d k v).map Prod.fst =
      if dictContains d k then d.map Prod.fst else d.map Prod.fst ++ [k] := by
  induction d with
  | nil => rfl
  | cons p d ih =>
      cases hpk : (p.1 == k) with
      | true =>
          have hk : p.1 = k := eq_of_beq hpk
          simp [dictSet, dictContains, hpk, hk]
      | false =>
          cases hc : dictContains d k with
          | true => simp [dictSet, dictContains, hpk, hc, ih]
          | false => simp [dictSet, dictContains, hpk, hc, ih]

theorem keysAgree_step (s : RegistryState) (e : RegistryEvent)
    (h : s.mcp_connections.map Prod.fst = s.mcp_tools.map Prod.fst) :
    (registryStep s e).mcp_connections.map Prod.fst
      = (registryStep s e).mcp_tools.map Prod.fst := by
  cases e with
  | publish name client toolsList =>
      simp only [registryStep]
      rw [keys_dictSet, keys_dictSet, dictContains_eq_keys, dictContains_eq_keys, h]
  | supervisorCleanup name =>
      simp only [registryStep]
      rw [keys_guardedDel, keys_guardedDel, h]
  | routerEvict name =>
      simp only [registryStep]
      rw [keys_guardedDel, keys_guardedDel, h]
  | unloadClear => rfl

theorem keysAgree_run (es : List RegistryEvent) :
    (registryRun es).mcp_connections.map Prod.fst
      = (registryRun es).mcp_tools.map Prod.fst := by
  suffices h : ∀ (es : List RegistryEvent) (s : RegistryState),
      s.mcp_connections.map Prod.fst = s.mcp_tools.map Prod.fst →
      (es.foldl registryStep s).mcp_connections.map Prod.fst
        = (es.foldl registryStep s).mcp_tools.map Prod.fst from
    h es registryInit rfl
  intro es
  induction es with
  | nil => intro s hs; exact hs
  | cons e tail ih => intro s hs; exact ih _ (keysAgree_step s e hs)

theorem dictGet_mem {α : Type} {d : Dict α} {k : String} {v : α}
    (h : dictGet d k = some v) : (k, v) ∈ d := by
  induction d with
  | nil => cases h
  | cons p d ih =>
      simp only [dictGet] at h
      split at h
      · next hpk =>
          have hk : p.1 = k := eq_of_beq hpk
          have hv : p.2 = v := Option.some.inj h
          have hp : (k, v) = p := by rw [← hk, ← hv]
          exact List.mem_cons.mpr (Or.inl hp)
      · next hpk => exact List.mem_cons_of_mem _ (ih h)

theorem mem_dictDel {α : Type} {d : Dict α} {k : String} {p : String × α}
    (h : p ∈ dictDel d k) : p ∈ d ∧ p.1 ≠ k := by
  induction d with
  | nil => simp [dictDel] at h
  | cons q d ih =>
      simp only [dictDel] at h
      split at h
      · next hqk =>
          rcases ih h with ⟨h1, h2⟩
          exact ⟨List.mem_cons_of_mem _ h1, h2⟩
      · next hqk =>
          rcases List.mem_cons.mp h with h1 | h1
          · subst h1
            refine ⟨List.mem_cons_self _ _, ?_⟩
            intro hk
            exact hqk (by rw [hk]; exact beq_self_eq_true k)
          · rcases ih h1 with ⟨h2, h3⟩
            exact ⟨List.mem_cons_of_mem _ h2, h3⟩

theorem mem_guardedDel {α : Type} {d : Dict α} {k : String} {p : String × α}
    (h : p ∈ (if dictContains d k then dictDel d k else d)) : p ∈ d ∧ p.1 ≠ k := by
  split at h
  · exact mem_dictDel h
  · next hc =>
      refine ⟨h, ?_⟩
      intro hk
      apply hc
      rw [dictContains_eq_keys]
      refine List.any_eq_true.mpr ⟨p.1, List.mem_map_of_mem Prod.fst h, ?_⟩
      rw [hk]; exact beq_self_eq_true k

theorem resolve_no_owner (s : RegistryState) (toolName : String)
    (h : ∀ p ∈ s.mcp_tools, toolListHas p.2 toolName = false) :
    resolveTool s toolName =
      if s.mcp_connections.isEmpty then ExecOutcome.noServersConnected
      else ExecOutcome.notFound := by
  have hfind : List.find? (connHasTool s.mcp_tools toolName) s.mcp_connections = none :=
    List.find?_eq_none.mpr (fun p _ => by
      unfold connHasTool
      cases hg : dictGet s.mcp_tools p.1 with
      | none => simp
      | some ts => simp [h (p.1, ts) (dictGet_mem hg)])
  have hfs : findServer s toolName = none := by
    unfold findServer
    rw [hfind]
    rfl
  have horigin : List.find? (fun p => toolListHas p.2 toolName) s.mcp_tools = none :=
    List.find?_eq_none.mpr (fun p hp => by simp [h p hp])
  have hto : toolOrigin s.mcp_tools toolName = none := by
    unfold toolOrigin
    rw [horigin]
    rfl
  unfold resolveTool
  rw [hfs, hto]

theorem foldl_histOps_head (m0 : Msg) :
    ∀ (ops : List HistOp) (h : List Msg), h.head? = some m0 →
      (ops.foldl applyHistOp h).head? = some m0 := by
  intro ops
  induction ops with
  | nil => intro h hh; exact hh
  | cons op tail ih =>
      intro h hh
      have hstep : (applyHistOp h op).head? = some m0 := by
        cases op with
        | appendMsg m =>
            cases h with
            | nil => cases hh
            | cons x t =>
                simp only [List.head?_cons, Option.some.injEq] at hh
                simp [applyHistOp, hh]
        | trimTo n =>
            cases h with
            | nil => cases hh
            | cons x t =>
                simp only [List.head?_cons, Option.some.injEq] at hh
                simp only [applyHistOp, trimHistory]
                split
                · simp [hh]
                · simp [hh]
      exact ih (applyHistOp h op) hstep

/-- Claim C1: the spec says a Router eviction while the supervisor is in
`Ready` makes it leave the wait and reconnect. The code refutes this: the
`Ready` wait of line 203 is `await self._shutdown_event.wait()`, which
completes only once the shutdown event is set, so from `Ready` with shutdown
unset any event sequence free of `setShutdown` — Router evictions included —
leaves the supervisor exactly where it was; it never re-enters
`connecting`. -/
theorem supervisor_ready_ignores_router_eviction (d : Nat) :
    ∀ es : List SupEvent, SupEvent.setShutdown ∉ es →
      supRun { phase := .ready, shutdownSet := false, reconnectDelay := d } es =
        { phase := .ready, shutdownSet := false, reconnectDelay := d } := by
  intro es
  induction es with
  | nil => intro _; rfl
  | cons e tail ih =>
      intro h
      have he : e ≠ .setShutdown := fun hEq => h (by rw [hEq]; exact List.mem_cons_self _ _)
      have hstep : supStep { phase := .ready, shutdownSet := false, reconnectDelay := d } e
          = { phase := .ready, shutdownSet := false, reconnectDelay := d } := by
        cases e <;> first | rfl | exact absurd rfl he
      have hcons : supRun ({ phase := .ready, shutdownSet := false, reconnectDelay := d }
            : SupervisorState) (e :: tail)
          = supRun (supStep { phase := .ready, shutdownSet := false, reconnectDelay := d } e)
              tail := rfl
      rw [hcons, hstep]
      exact ih (fun hm => h (List.mem_cons_of_mem _ hm))

/-- Witness for C1: a Router eviction followed by a (shutdown-free) wakeup
attempt leaves the supervisor in `Ready` with its delay untouched. -/
theorem supervisor_ready_ignores_router_eviction_witness :
    supRun { phase := .ready, shutdownSet := false, reconnectDelay := 15 }
        [SupEvent.routerEvict, SupEvent.readyWakeup] =
      { phase := .ready, shutdownSet := false, reconnectDelay := 15 } :=
  supervisor_ready_ignores_router_eviction 15 [.routerEvict, .readyWakeup] (by decide)

/-- Claim C4: the reconnect delays used before successive retries are
exactly 15, 30, 60, 120, 240, 300, 300, … (doubling, capped at 300), and the
delay resets to 15 on a successful connect-and-list. -/
theorem reconnect_backoff_sequence :
    (∀ n, delayAfterFailures n = min (15 * 2 ^ n) 300) ∧
    (List.range 7).map delayAfterFailures = [15, 30, 60, 120, 240, 300, 300] ∧
    (∀ n, supRun supInit (failCycle n) =
      { phase := .backoffWait, shutdownSet := false, reconnectDelay := delayAfterFailures n }) ∧
    (∀ n, supRun supInit (failCycle n ++ [.backoffTimeout, .connectAndListOk]) =
      { phase := .ready, shutdownSet := false, reconnectDelay := 15 }) :=
  ⟨delayAfterFailures_eq, by decide, supRun_failCycle, fun n => by
    rw [supRun_append, supRun_failCycle]; rfl⟩

/-- Claim C10: after any sequence of registry mutations, a server name holds
a connection entry iff it holds a tool-list entry — publishes write both
together, evictions remove both together. -/
theorem registry_domains_coincide (es : List RegistryEvent) (n : String) :
    dictContains (registryRun es).mcp_connections n
      = dictContains (registryRun es).mcp_tools n := by
  rw [dictContains_eq_keys, dictContains_eq_keys, keysAgree_run]

/-- Claim C3: the streaming aggregator finalizes only slots with non-empty
id and name, and on the spec's example stream (slot 0: id `"a"`, name parts
`"get"`/`"Weather"`, split JSON arguments; slot 1: no id) it finalizes
exactly one call with id `"a"`, name `"getWeather"` and the concatenated
argument string. -/
theorem streaming_aggregation_finalize :
    (∀ (frags : List ToolCallFrag) (tc : PendingToolCall),
        tc ∈ aggregateToolCalls frags → tc.id ≠ "" ∧ tc.name ≠ "") ∧
    aggregateToolCalls exampleFrags =
      [{ id := "a", name := "getWeather", arguments := "\x7b\"city\":\"NY\"\x7d" }] := by
  constructor
  · intro frags tc h
    unfold aggregateToolCalls finalizeToolCalls at h
    have h2 := (List.mem_filter.mp h).2
    simp only [Bool.and_eq_true, bne_iff_ne, ne_eq] at h2
    exact h2
  · decide

/-- Witness for C3: the finalized call of the example stream indeed has
non-empty id and name. -/
theorem streaming_aggregation_finalize_witness :
    ({ id := "a", name := "getWeather", arguments := "\x7b\"city\":\"NY\"\x7d" }
        : PendingToolCall).id ≠ "" ∧
    ({ id := "a", name := "getWeather", arguments := "\x7b\"city\":\"NY\"\x7d" }
        : PendingToolCall).name ≠ "" :=
  streaming_aggregation_finalize.1 exampleFrags _ (by decide)

/-- Claim C6 counterexample: with cap `N = 2`, reading the history
`[system, u1, a1, u2, a2, u3]` does not yield `[system, u3]` as the claim
states. -/
theorem trim_cap_two_counterexample :
    get_channel_history "sys" 2 (some sampleTrimHistory)
      ≠ [systemMsgOf "sys", userMsg "u3"] := by
  decide

/-- Claim C6 amended: with cap `N = 2`, reading `[system, u1, a1, u2, a2,
u3]` trims it to `[system, a2, u3]` — the system message plus the most
recent `N` entries, as lines 466-473 compute. -/
theorem trim_cap_two_keeps_last_two :
    get_channel_history "sys" 2 (some sampleTrimHistory)
      = [systemMsgOf "sys", assistantMsg "a2", userMsg "u3"] := by
  decide

set_option maxRecDepth 8192 in
/-- Claim C8: the result formatter is total and
* unwraps the tagged text block `type = "text"` with text `"42"` to `"42"`,
* maps `None` content to the fixed no-content message,
* prefixes the standard error dict with `Tool Error: `,
* stringifies primitives and pretty-prints nested structures, and
* truncates the `str(·)` of an unrecognized shape to 200 characters after a
  diagnostic prefix. -/
theorem format_result_cases :
    format_calltoolresult_content
        (.invocation { content := .dict [("type", .str "text"), ("text", .str "42")]
                     , error_code := some 0 }) = "42" ∧
    format_calltoolresult_content (.invocation { content := .none, error_code := some 0 })
      = "Tool executed successfully but returned no content." ∧
    format_calltoolresult_content (.errDict "boom") = "Tool Error: boom" ∧
    format_calltoolresult_content
        (.invocation { content := .str "hello", error_code := none }) = "hello" ∧
    format_calltoolresult_content
        (.invocation { content := .int 7, error_code := none }) = "7" ∧
    format_calltoolresult_content
        (.invocation { content := .dict [("k", .int 1)], error_code := some 0 })
      = "\x7b\n  \"k\": 1\n\x7d" ∧
    (format_calltoolresult_content (.unexpected longStrRep)).length
      = "Unexpected tool result format: ".length + 200 := by
  refine ⟨?_, ?_, ?_, ?_, ?_, ?_, ?_⟩ <;> decide

/-- Claim C2 counterexample: with `alpha` publishing `getWeather` and `beta`
connected with no tools, a connection fault during `getWeather` evicts
`alpha`'s connection *and* tool list, so the immediately following
resolution classifies the tool as not found (line 370), not as unavailable
(line 366) — the fallback scan of lines 353-356 searches `self.mcp_tools`,
from which the eviction just removed the only record of the name. -/
theorem evicted_tool_not_unavailable_counterexample :
    resolveTool (execute_tool twoServerState "getWeather" .connectionFault).1 "getWeather"
        = ExecOutcome.notFound ∧
    isUnavailableOutcome
        (resolveTool (execute_tool twoServerState "getWeather" .connectionFault).1 "getWeather")
      = false := by
  constructor
  · decide
  · decide

/-- Claim C2 amended: after a connection fault during invocation evicts the
owning server's connection and tool set, an immediately following execute of
the same tool returns the NotFound classification — the no-servers-connected
variant when no connections remain, the generic not-found otherwise — never
Unavailable, because the eviction also removed the only tool list recording
the name. -/
theorem execute_after_eviction_notfound (s : RegistryState) (srv toolName : String)
    (hres : resolveTool s toolName = .invoked srv)
    (honly : ∀ p ∈ s.mcp_tools, p.1 ≠ srv → toolListHas p.2 toolName = false) :
    resolveTool (execute_tool s toolName .connectionFault).1 toolName
      = if (execute_tool s toolName .connectionFault).1.mcp_connections.isEmpty
        then ExecOutcome.noServersConnected else ExecOutcome.notFound := by
  have hstate : (execute_tool s toolName .connectionFault).1
      = registryStep s (.routerEvict srv) := by
    simp [execute_tool, hres, invokeAndClassify]
  rw [hstate]
  apply resolve_no_owner
  intro p hp
  simp only [registryStep] at hp
  have hmem := mem_guardedDel hp
  exact honly p hmem.1 hmem.2

/-- Witness for C2's amended claim: in the two-server state the post-fault
resolution of `getWeather` is the generic not-found. -/
theorem execute_after_eviction_notfound_witness :
    resolveTool (execute_tool twoServerState "getWeather" .connectionFault).1 "getWeather"
      = if (execute_tool twoServerState "getWeather" .connectionFault).1.mcp_connections.isEmpty
        then ExecOutcome.noServersConnected else ExecOutcome.notFound :=
  execute_after_eviction_notfound twoServerState "alpha" "getWeather" (by decide)
    (by decide)

/-- Claim C7: an invocation that completes (no transport fault, no timeout)
leaves the registries untouched; a null or zero `error_code` returns the
`ToolInvocationResult` unchanged, a non-zero code becomes the tool-reported
error message carrying the code and any content. -/
theorem completed_invocation_classification (s : RegistryState) (toolName srv : String)
    (r : ToolInvocationResult) (hres : resolveTool s toolName = .invoked srv) :
    (execute_tool s toolName (.completed r)).1 = s ∧
    ((r.error_code = none ∨ r.error_code = some 0) →
      (execute_tool s toolName (.completed r)).2 = .ok r) ∧
    (∀ code : Int, r.error_code = some code → code ≠ 0 →
      (execute_tool s toolName (.completed r)).2
        = .errDict (toolReportedErrorMessage code r.content)) := by
  refine ⟨?_, ?_, ?_⟩
  · simp only [execute_tool, hres, invokeAndClassify]
    cases hec : r.error_code with
    | none => rfl
    | some code =>
        by_cases hc : code = 0
        · simp [hc]
        · simp [hc]
  · rintro (h | h) <;> simp [execute_tool, hres, invokeAndClassify, h]
  · intro code hcode hne
    simp [execute_tool, hres, invokeAndClassify, hcode, hne]

/-- Witness for C7: the spec's sample result (content `"x"`, error code 7)
invoked on the connected `alpha` yields the tool-reported error message and
leaves the registry unchanged. -/
theorem completed_invocation_classification_witness :
    (execute_tool oneServerState "getWeather" (.completed errSevenResult)).1 = oneServerState ∧
    (execute_tool oneServerState "getWeather" (.completed errSevenResult)).2
      = .errDict "Tool reported error code 7: x" := by
  have h := completed_invocation_classification oneServerState "getWeather" "alpha"
    errSevenResult (by decide)
  exact ⟨h.1, h.2.2 7 rfl (by decide)⟩

/-- Claim C5: per user message, if at least one tool-result entry was
appended then exactly one follow-up backend call is issued — with the
updated history and with the `tools`/`tool_choice` keys absent — and no
further rounds follow; if the initial response requested no tool calls, no
follow-up call is issued at all. -/
theorem single_followup_round (hist0 : List Msg) (userText : String) (toolsOffered : Bool)
    (resp : InitialResponse) (followUpText : String) :
    (resp.toolCalls = [] →
      (handleChatLogic hist0 userText toolsOffered resp followUpText).llmCalls
        = [{ messages := hist0 ++ [userMsg userText]
           , paramKeys := initialParamKeys toolsOffered }]) ∧
    (toolResultEntries resp.toolCalls ≠ [] →
      (handleChatLogic hist0 userText toolsOffered resp followUpText).llmCalls
        = [ { messages := hist0 ++ [userMsg userText]
            , paramKeys := initialParamKeys toolsOffered }
          , { messages := hist0 ++ [userMsg userText] ++ [assistantMsgOf resp]
                ++ toolResultEntries resp.toolCalls
            , paramKeys := followUpParamKeys } ]) ∧
    "tools" ∉ followUpParamKeys ∧ "tool_choice" ∉ followUpParamKeys ∧
    (handleChatLogic hist0 userText toolsOffered resp followUpText).llmCalls.length ≤ 2 := by
  refine ⟨?_, ?_, by decide, by decide, ?_⟩
  · intro hempty
    simp only [handleChatLogic]
    by_cases hc : resp.content.trim = ""
    · rw [if_pos ⟨hc, hempty⟩]
    · rw [if_neg (fun hand => hc hand.1), if_pos hempty]
  · intro hne
    have htc : resp.toolCalls ≠ [] := by
      intro he
      apply hne
      rw [he]
      rfl
    simp only [handleChatLogic]
    rw [if_neg (fun hand => htc hand.2), if_neg htc, if_neg hne]
    by_cases hf : followUpText.trim = ""
    · rw [if_pos hf]
    · rw [if_neg hf]
  · simp only [handleChatLogic]
    split_ifs <;> simp

/-- Witness for C5: a response with one valid tool call leads to exactly the
initial call plus one follow-up without the tool parameters. -/
theorem single_followup_round_witness :
    (handleChatLogic [systemMsgOf "sys"] "hi" true sampleToolResponse "done").llmCalls
      = [ { messages := [systemMsgOf "sys"] ++ [userMsg "hi"]
          , paramKeys := initialParamKeys true }
        , { messages := [systemMsgOf "sys"] ++ [userMsg "hi"]
              ++ [assistantMsgOf sampleToolResponse]
              ++ toolResultEntries sampleToolResponse.toolCalls
          , paramKeys := followUpParamKeys } ] :=
  (single_followup_round [systemMsgOf "sys"] "hi" true sampleToolResponse "done").2.1
    (by decide)

/-- Claim C9: index 0 of every reachable history is the system message, and
every single mutation is either an append at the end or a trim that keeps
element 0 and removes a prefix of the remaining (oldest) messages — order is
never changed. -/
theorem history_head_and_ops :
    (∀ (systemMessage : String) (ops : List HistOp),
        (runHistOps systemMessage ops).head? = some (systemMsgOf systemMessage)) ∧
    (∀ (h : List Msg) (op : HistOp),
        (∃ m, applyHistOp h op = h ++ [m]) ∨
        (∃ k, 1 ≤ k ∧ applyHistOp h op = h.take 1 ++ h.drop k)) := by
  constructor
  · intro sm ops
    exact foldl_histOps_head (systemMsgOf sm) ops [systemMsgOf sm] rfl
  · intro h op
    cases op with
    | appendMsg m => exact Or.inl ⟨m, rfl⟩
    | trimTo n =>
        right
        simp only [applyHistOp, trimHistory]
        split
        · exact ⟨h.length - (n + 1) + 1, by omega, rfl⟩
        · exact ⟨1, le_refl 1, (List.take_append_drop 1 h).symm⟩

end DiscordAIBot
